import Mathlib

/-!
Verification of the terminal-bridge core of `os-terminal-ratatui-test`.

The development shallowly embeds the data model and operations of the
repository: the mouse-wheel scroll accumulator, the keyboard scancode
translator, the PendingRedraw presentation coalescing, the shared geometry
adapter, the clipboard adapter, the virtual capability's `poll_and_read`,
the application loop's input dispatch, the shutdown signalling, and the
application-output write path.  Floating-point accumulators from the source
are modelled exactly over `ℚ`; machine integers over `Nat` with explicit
`% 2^w` where the source truncates.
-/

/- ### Scroll accumulator (src/terminal.rs, `App::window_event`, MouseWheel arm) -/

/-- A mouse-wheel delta as delivered by the windowing system: either a
discrete line count (`MouseScrollDelta::LineDelta`) or a continuous pixel
offset (`MouseScrollDelta::PixelDelta`, of which the code uses `delta.y`). -/
inductive ScrollDelta where
  | line (l : ℚ)
  | pixel (y : ℚ)
deriving DecidableEq

/-- Embeds `TOUCHPAD_SCROLL_MULTIPLIER: f32 = 0.25` (src/terminal.rs:32). -/
def touchpadScrollMultiplier : ℚ := 1 / 4

/-- Lines contributed to the accumulator by one delta: line deltas are added
directly, pixel deltas are scaled by the touchpad multiplier
(src/terminal.rs:412-417). -/
def deltaLines : ScrollDelta → ℚ
  | .line l => l
  | .pixel y => y * touchpadScrollMultiplier

/-- Embeds the Rust `as isize` cast of a float: truncation toward zero. -/
def ratTrunc (q : ℚ) : ℤ := if 0 ≤ q then ⌊q⌋ else ⌈q⌉

/-- State of the scroll path: the accumulator (`App::scroll_accumulator`),
and the list of `MouseInput::Scroll(lines)` injections made so far (each
list entry is one hardware-input injection carrying a whole-line count). -/
structure ScrollState where
  acc : ℚ
  events : List ℤ
deriving DecidableEq

/-- Initial scroll state: `scroll_accumulator: 0.0`, nothing injected. -/
def scrollInit : ScrollState := { acc := 0, events := [] }

/-- One MouseWheel event (src/terminal.rs:411-427): add the delta's lines to
the accumulator; if the accumulator's magnitude reaches 1.0, truncate it
toward zero to a whole-line count, inject that count, and keep the
fractional remainder. -/
def scrollStep (s : ScrollState) (d : ScrollDelta) : ScrollState :=
  if 1 ≤ |s.acc + deltaLines d| then
    { acc := s.acc + deltaLines d - ratTrunc (s.acc + deltaLines d),
      events := s.events ++ [ratTrunc (s.acc + deltaLines d)] }
  else
    { acc := s.acc + deltaLines d, events := s.events }

/-- Processing a whole sequence of wheel deltas from the initial state. -/
def scrollRun (ds : List ScrollDelta) : ScrollState :=
  ds.foldl scrollStep scrollInit

/-- Net whole-line count emitted so far (sum of the injected scroll counts). -/
def emittedLines (s : ScrollState) : ℤ := s.events.sum

/-- Total line-equivalent input of a delta sequence. -/
def totalLines (ds : List ScrollDelta) : ℚ := (ds.map deltaLines).sum

/- ### Keyboard translation (src/terminal.rs, `App::window_event`, KeyboardInput arm) -/

/-- Embeds the release offset added for key-release events
(`scancode += 0x80`, src/terminal.rs:437). -/
def releaseOffset : Nat := 0x80

/-- Embeds the extended-code threshold (`scancode >= 0xe000`,
src/terminal.rs:439). -/
def extendedThreshold : Nat := 0xe000

/-- Embeds the escape byte injected before an extended code
(`handle_keyboard(0xe0)`, src/terminal.rs:440). -/
def escapeByte : Nat := 0xe0

/-- The 16-bit scancode computed from the keymap table's `win` value `w`:
the release offset is added when the event is a release
(src/terminal.rs:435-438; `u16` arithmetic, hence `% 65536`). -/
def mappedScancode (w : Nat) (released : Bool) : Nat :=
  if released then (w + releaseOffset) % 65536 else w

/-- Hardware-input injections made for a computed scancode
(src/terminal.rs:439-446): an extended code first injects the escape byte
and then the code with the threshold subtracted; `handle_keyboard` takes a
`u8`, hence `% 256` on the injected byte. -/
def scancodeInjections (s : Nat) : List Nat :=
  if extendedThreshold ≤ s then [escapeByte, (s - extendedThreshold) % 256]
  else [s % 256]

/-- Full keyboard path for one physical key event: `win` is the keymap
table's entry for the key (`none` when `to_scancode` or
`KeyMap::from_key_mapping` fails, in which case nothing is injected,
src/terminal.rs:429-433). -/
def keyEventInjections (win : Option Nat) (released : Bool) : List Nat :=
  match win with
  | none => []
  | some w => scancodeInjections (mappedScancode w released)

/- ### PendingRedraw coalescing (src/terminal.rs, `TerminalWriter::write` and `App::new_events`) -/

/-- Events relevant to the presentation pipeline: a write into the engine
(`lockOk` false models a failed `terminal.lock()`), or an event-loop wake
(`resumeTimeReached` true models `StartCause::ResumeTimeReached`, the paced
presentation tick). -/
inductive SysEvent where
  | write (lockOk : Bool)
  | wake (resumeTimeReached : Bool)
deriving DecidableEq

/-- Presentation state: the `pending_draw` flag and the number of frames
presented so far. -/
structure SysState where
  pending : Bool
  frames : Nat
deriving DecidableEq

/-- One step of the presentation pipeline.  A successful write sets the flag
(src/terminal.rs:58-61).  `App::new_events` (src/terminal.rs:336-352)
returns early unless the cause is `ResumeTimeReached`; on a tick it swaps
the flag to false and presents one frame only if the flag was set. -/
def sysStep (s : SysState) : SysEvent → SysState
  | .write true => { s with pending := true }
  | .write false => s
  | .wake false => s
  | .wake true =>
    { pending := false, frames := if s.pending then s.frames + 1 else s.frames }

/- ### Shared geometry (src/terminal.rs, `GUIScreen::resize`, `VirtualBackend::size` / `window_size`) -/

/-- Embeds ratatui's `Size` as returned by `VirtualBackend::size`. -/
structure TermSize where
  width : Nat
  height : Nat
deriving DecidableEq

/-- Embeds ratatui's `WindowSize` as returned by
`VirtualBackend::window_size`. -/
structure TermWindowSize where
  columns_rows : TermSize
  pixels : TermSize
deriving DecidableEq

/-- Embeds `GUIScreen::resize` (src/terminal.rs:196-198): the shared
geometry pair is overwritten with `(cols, rows)` in one assignment. -/
def screenResize (_g : Nat × Nat) (cols rows : Nat) : Nat × Nat := (cols, rows)

/-- Embeds `VirtualBackend::size` (src/terminal.rs:121-124): reads the
shared pair once and returns it as a `Size`. -/
def backendSize (g : Nat × Nat) : TermSize := { width := g.1, height := g.2 }

/-- Embeds `VirtualBackend::window_size` (src/terminal.rs:126-138): reads
the shared pair once; the pixel part is fixed at zero. -/
def backendWindowSize (g : Nat × Nat) : TermWindowSize :=
  { columns_rows := { width := g.1, height := g.2 },
    pixels := { width := 0, height := 0 } }

/- ### Clipboard adapter (src/terminal.rs, `impl ClipboardHandler for Clipboard`) -/

/-- Embeds `Clipboard::get_text` (src/terminal.rs:43-45): the OS clipboard
read result (`arboard` errors collapsed to `Unit`) is mapped through
`.ok()`, so a failure becomes `none`. -/
def clipboardGetText (r : Except Unit String) : Option String :=
  match r with
  | .ok s => some s
  | .error _ => none

/-- Outcome of `Clipboard::set_text`: either a normal return or a thread
panic. -/
inductive ClipWriteOutcome where
  | ok
  | panicked
deriving DecidableEq

/-- Embeds `Clipboard::set_text` (src/terminal.rs:46-48): the OS clipboard
write result is forced with `.unwrap()`, so a failure panics. -/
def clipboardSetText (r : Except Unit Unit) : ClipWriteOutcome :=
  match r with
  | .ok _ => .ok
  | .error _ => .panicked

/- ### Virtual capability `poll_and_read` (src/terminal.rs, `GUIScreen::poll_and_read`) -/

/-- Result of `Receiver::recv_timeout(timeout)`: an event arriving within
the timeout, the timeout elapsing, or the channel being permanently
closed. -/
inductive RecvTimeoutOutcome (α : Type) where
  | ok (e : α)
  | timeout
  | disconnected

/-- The error surfaced by `poll_and_read`. -/
inductive RecvError where
  | disconnected
deriving DecidableEq

/-- Embeds `GUIScreen::poll_and_read` (src/terminal.rs:168-179): an event
maps to `Ok(Some(event))`, a timeout to `Ok(None)`, a disconnection to
`Err(Disconnected)`. -/
def pollAndRead {α : Type} : RecvTimeoutOutcome α → Except RecvError (Option α)
  | .ok e => .ok (some e)
  | .timeout => .ok none
  | .disconnected => .error RecvError.disconnected

/-- Whether an `Except` value is an error. -/
def exceptIsError {ε α : Type} : Except ε α → Bool
  | .error _ => true
  | .ok _ => false

/- ### Application model and input dispatch (src/tui/crossterm.rs, `run_app`) -/

/-- The discrete application actions the loop can invoke on the demo app:
the four navigation methods, the generic key method, and the tick method. -/
inductive AppAction where
  | left
  | up
  | right
  | down
  | key (c : Char)
  | tick
deriving DecidableEq

/-- Modelled from the spec: the demo application itself (`src/tui/app.rs`
is not among the sources; only its callers and the `App` name appear).
The spec treats it as "an opaque consumer of discrete input actions", so it
is recorded as the trace of actions invoked on it together with its
`should_quit` termination flag; invoking an action appends it to the trace
and leaves the flag alone. -/
structure AppModel where
  actions : List AppAction
  should_quit : Bool
deriving DecidableEq

/-- Modelled from the spec: the app's initial/default state — empty action
trace, not yet terminating. -/
def appInit : AppModel := { actions := [], should_quit := false }

/-- Modelled from the spec: invoking one action method on the opaque app
records it in the trace. -/
def appApply (a : AppModel) (act : AppAction) : AppModel :=
  { a with actions := a.actions ++ [act] }

/-- The key codes `run_app` can produce from a `KeyText` string
(src/tui/crossterm.rs:67-74). -/
inductive TKeyCode where
  | up
  | down
  | left
  | right
  | char (c : Char)
deriving DecidableEq

/-- UTF-8 byte length of a string given as its character sequence: Rust's
`str::len` counts bytes, not characters. -/
def utf8Length (s : List Char) : Nat := (s.map Char.utf8Size).sum

/-- Embeds the string interpretation of src/tui/crossterm.rs:67-74: the
four arrow escape sequences, then the guard `s if s.len() == 1` — `len()`
is the UTF-8 byte length, so this arm matches exactly the strings that are
one single-byte character, whose first character it takes — then nothing.
A single character wider than one byte fails the guard and is dropped. -/
def parseKeyCode (s : List Char) : Option TKeyCode :=
  if s = ['\x1b', '[', 'A'] then some .up
  else if s = ['\x1b', '[', 'B'] then some .down
  else if s = ['\x1b', '[', 'C'] then some .right
  else if s = ['\x1b', '[', 'D'] then some .left
  else if utf8Length s = 1 then
    match s with
    | c :: _ => some (.char c)
    | [] => none
  else none

/-- Embeds the dispatch match of src/tui/crossterm.rs:77-84: which app
method one recognized key code invokes.  The char cases follow the Rust
match arm order (`'h'`, `'k'`, `'l'`, `'j'`, then the catch-all). -/
def actionOfKeyCode : TKeyCode → AppAction
  | .left => .left
  | .up => .up
  | .right => .right
  | .down => .down
  | .char c =>
    if c = 'h' then .left
    else if c = 'k' then .up
    else if c = 'l' then .right
    else if c = 'j' then .down
    else .key c

/-- Full handling of one `Input` event: parse the string; if a key code is
recognized invoke exactly one app method, otherwise invoke none. -/
def handleInput (a : AppModel) (cs : List Char) : AppModel :=
  match parseKeyCode cs with
  | some k => appApply a (actionOfKeyCode k)
  | none => a

/-- The actions fired by one `KeyText` event against the app in its
initial/default state. -/
def keyTextActions (cs : List Char) : List AppAction :=
  (handleInput appInit cs).actions

/- ### Application loop step (src/tui/crossterm.rs, `run_app`) -/

/-- The events carried on the window-to-application channel
(`AppEvent` in src/tui/mod.rs:104-107). -/
inductive ChanEvent where
  | input (s : List Char)
  | resize (cols rows : Nat)
deriving DecidableEq

/-- What `input_rx.recv_timeout` produced in one loop iteration. -/
inductive RecvOutcome where
  | ok (e : ChanEvent)
  | timeout
  | disconnected
deriving DecidableEq

/-- State threaded through `run_app`: the app model and the shared
geometry pair (`size_handle`). -/
structure LoopState where
  app : AppModel
  geom : Nat × Nat
deriving DecidableEq

/-- How one `run_app` iteration ends: continue looping, return `Ok` (the
`should_quit` exit), or return an error. -/
inductive StepResult where
  | next (s : LoopState)
  | done (s : LoopState)
  | err
deriving DecidableEq

/-- The receive-match of src/tui/crossterm.rs:65-91: an `Input` event is
dispatched to the app, a `Resize` event overwrites the shared geometry
pair, and `Err(_) => {}` leaves the state untouched for both the timeout
and the disconnection error. -/
def applyRecv (s : LoopState) : RecvOutcome → LoopState
  | .ok (.input cs) => { s with app := handleInput s.app cs }
  | .ok (.resize c r) => { s with geom := (c, r) }
  | .timeout => s
  | .disconnected => s

/-- One iteration of the `run_app` loop body (src/tui/crossterm.rs:61-99)
after the draw: receive and handle one outcome, run the tick update if the
tick interval elapsed, then return `Ok` if `should_quit` and otherwise
continue. -/
def runAppStep (s : LoopState) (r : RecvOutcome) (tickElapsed : Bool) : StepResult :=
  let s1 := applyRecv s r
  let s2 := if tickElapsed then { s1 with app := appApply s1.app AppAction.tick } else s1
  if s2.app.should_quit then StepResult.done s2 else StepResult.next s2

/- ### Window loop exit and shutdown signal (src/terminal.rs, `run_tui_thread`, `App::user_event`, `App::window_event`) -/

/-- The events the winit `App` handler observes, by handler arm. -/
inductive WinEvent where
  | userEvent
  | closeRequested
  | imeCommit (s : List Char)
  | mouseWheel (d : ScrollDelta)
  | keyboardInput (win : Option Nat) (released : Bool)
  | otherWindowEvent
deriving DecidableEq

/-- Whether handling the event calls `event_loop.exit()`:
`user_event` (the shutdown signal, src/terminal.rs:396-399) and
`CloseRequested` (src/terminal.rs:403-405) do; no other arm does. -/
def winExits : WinEvent → Bool
  | .userEvent => true
  | .closeRequested => true
  | _ => false

/-- Externally visible actions of the TUI thread wrapper. -/
inductive ThreadAct where
  | logError
  | sendShutdown
deriving DecidableEq

/-- Embeds `run_tui_thread` (src/terminal.rs:203-216) after the loop
returns: an error is logged, and in every case the shutdown signal is sent
through the event-loop proxy as the final action. -/
def runTuiThread (loopResult : Except Unit Unit) : List ThreadAct :=
  match loopResult with
  | .error _ => [ThreadAct.logError, ThreadAct.sendShutdown]
  | .ok _ => [ThreadAct.sendShutdown]

/- ### Application-output write path (src/terminal.rs, `impl std::io::Write for TerminalWriter`) -/

/-- The engine state visible to the writer: bytes fed into the engine so
far, and the `pending_draw` flag. -/
structure EngineState where
  bytes : List Nat
  pending : Bool
deriving DecidableEq

/-- Embeds `TerminalWriter::write` (src/terminal.rs:57-63): when the engine
lock is acquired the buffer is processed and the flag set; when not, the
state is untouched; either way the call returns `Ok(buf.len())`. -/
def terminalWriterWrite (lockOk : Bool) (st : EngineState) (buf : List Nat) :
    EngineState × Except Unit Nat :=
  if lockOk then
    ({ bytes := st.bytes ++ buf, pending := true }, Except.ok buf.length)
  else
    (st, Except.ok buf.length)

/-! ## Theorems -/

/- ### C1: the scroll accumulator -/

theorem abs_sub_ratTrunc_lt_one (q : ℚ) : |q - (ratTrunc q : ℚ)| < 1 := by
  unfold ratTrunc
  by_cases h : 0 ≤ q
  · rw [if_pos h, abs_of_nonneg (by linarith [Int.floor_le q])]
    linarith [Int.lt_floor_add_one q]
  · rw [if_neg h, abs_of_nonpos (by linarith [Int.le_ceil q])]
    linarith [Int.ceil_lt_add_one q]

theorem scrollStep_abs_lt_one (s : ScrollState) (d : ScrollDelta) :
    |(scrollStep s d).acc| < 1 := by
  unfold scrollStep
  split
  · exact abs_sub_ratTrunc_lt_one (s.acc + deltaLines d)
  · rename_i h
    exact not_le.mp h

theorem scrollFold_abs_lt_one (ds : List ScrollDelta) :
    ∀ s : ScrollState, |s.acc| < 1 → |(List.foldl scrollStep s ds).acc| < 1 := by
  induction ds with
  | nil => intro s h; simpa using h
  | cons d ds ih =>
    intro s _
    exact ih (scrollStep s d) (scrollStep_abs_lt_one s d)

theorem scrollStep_conservation (s : ScrollState) (d : ScrollDelta) :
    ((scrollStep s d).events.sum : ℚ) + (scrollStep s d).acc
      = (s.events.sum : ℚ) + s.acc + deltaLines d := by
  unfold scrollStep
  split
  · simp only [List.sum_append, List.sum_cons, List.sum_nil]
    push_cast
    ring
  · simp only []
    ring

theorem scrollFold_conservation (ds : List ScrollDelta) :
    ∀ s : ScrollState,
      ((List.foldl scrollStep s ds).events.sum : ℚ) + (List.foldl scrollStep s ds).acc
        = (s.events.sum : ℚ) + s.acc + (ds.map deltaLines).sum := by
  induction ds with
  | nil => intro s; simp
  | cons d ds ih =>
    intro s
    simp only [List.foldl_cons, List.map_cons, List.sum_cons]
    rw [ih (scrollStep s d), scrollStep_conservation]
    ring

theorem scrollStep_acc_nonneg (s : ScrollState) (d : ScrollDelta)
    (hs : 0 ≤ s.acc) (hd : 0 ≤ deltaLines d) : 0 ≤ (scrollStep s d).acc := by
  have hx : 0 ≤ s.acc + deltaLines d := by linarith
  unfold scrollStep
  split
  · show 0 ≤ s.acc + deltaLines d - (ratTrunc (s.acc + deltaLines d) : ℚ)
    unfold ratTrunc
    rw [if_pos hx]
    linarith [Int.floor_le (s.acc + deltaLines d)]
  · exact hx

theorem scrollFold_acc_nonneg (ds : List ScrollDelta) :
    ∀ s : ScrollState, 0 ≤ s.acc → (∀ d ∈ ds, 0 ≤ deltaLines d) →
      0 ≤ (List.foldl scrollStep s ds).acc := by
  induction ds with
  | nil => intro s hs _; simpa using hs
  | cons d ds ih =>
    intro s hs hd
    exact ih (scrollStep s d)
      (scrollStep_acc_nonneg s d hs (hd d (List.mem_cons_self d ds)))
      (fun e he => hd e (List.mem_cons_of_mem d he))

theorem scrollStep_acc_nonpos (s : ScrollState) (d : ScrollDelta)
    (hs : s.acc ≤ 0) (hd : deltaLines d ≤ 0) : (scrollStep s d).acc ≤ 0 := by
  have hx : s.acc + deltaLines d ≤ 0 := by linarith
  unfold scrollStep
  split
  · show s.acc + deltaLines d - (ratTrunc (s.acc + deltaLines d) : ℚ) ≤ 0
    unfold ratTrunc
    by_cases h0 : 0 ≤ s.acc + deltaLines d
    · have hz : s.acc + deltaLines d = 0 := le_antisymm hx h0
      rw [if_pos h0, hz]
      simp
    · rw [if_neg h0]
      linarith [Int.le_ceil (s.acc + deltaLines d)]
  · exact hx

theorem scrollFold_acc_nonpos (ds : List ScrollDelta) :
    ∀ s : ScrollState, s.acc ≤ 0 → (∀ d ∈ ds, deltaLines d ≤ 0) →
      (List.foldl scrollStep s ds).acc ≤ 0 := by
  induction ds with
  | nil => intro s hs _; simpa using hs
  | cons d ds ih =>
    intro s hs hd
    exact ih (scrollStep s d)
      (scrollStep_acc_nonpos s d hs (hd d (List.mem_cons_self d ds)))
      (fun e he => hd e (List.mem_cons_of_mem d he))

theorem list_sum_nonpos (l : List ℚ) (h : ∀ x ∈ l, x ≤ 0) : l.sum ≤ 0 := by
  induction l with
  | nil => simp
  | cons a l ih =>
    rw [List.sum_cons]
    have ha := h a (List.mem_cons_self a l)
    have hl := ih (fun x hx => h x (List.mem_cons_of_mem a hx))
    linarith

/-- C1 (amended): feeding any sequence of wheel deltas (line deltas added
directly, pixel deltas scaled by the touchpad multiplier 0.25, arithmetic
taken exactly) leaves the accumulator's magnitude strictly below 1, and the
cumulative emitted whole-line count always equals the total input minus the
retained remainder; when all deltas are of one sign the cumulative emitted
count equals the floor of the cumulative input magnitude, carrying the
input's sign.  (For mixed-sign sequences the floor equation of the original
claim fails; see the counterexample.) -/
theorem scroll_accumulator_spec (ds : List ScrollDelta) :
    |(scrollRun ds).acc| < 1
  ∧ ((emittedLines (scrollRun ds) : ℚ) + (scrollRun ds).acc = totalLines ds)
  ∧ ((∀ d ∈ ds, 0 ≤ deltaLines d) → emittedLines (scrollRun ds) = ⌊totalLines ds⌋)
  ∧ ((∀ d ∈ ds, deltaLines d ≤ 0) → emittedLines (scrollRun ds) = -⌊|totalLines ds|⌋) := by
  have habs : |(scrollRun ds).acc| < 1 :=
    scrollFold_abs_lt_one ds scrollInit (by simp [scrollInit])
  have hcons : (emittedLines (scrollRun ds) : ℚ) + (scrollRun ds).acc = totalLines ds := by
    have h := scrollFold_conservation ds scrollInit
    simpa [scrollRun, emittedLines, totalLines, scrollInit] using h
  refine ⟨habs, hcons, ?_, ?_⟩
  · intro hd
    have hnn : 0 ≤ (scrollRun ds).acc :=
      scrollFold_acc_nonneg ds scrollInit (by simp [scrollInit]) hd
    have hlt : (scrollRun ds).acc < 1 := (abs_lt.mp habs).2
    symm
    rw [Int.floor_eq_iff]
    constructor <;> linarith
  · intro hd
    have hnp : (scrollRun ds).acc ≤ 0 :=
      scrollFold_acc_nonpos ds scrollInit (by simp [scrollInit]) hd
    have hgt : -1 < (scrollRun ds).acc := (abs_lt.mp habs).1
    have hSle : totalLines ds ≤ 0 := by
      refine list_sum_nonpos _ ?_
      intro x hx
      rcases List.mem_map.mp hx with ⟨d, hdm, rfl⟩
      exact hd d hdm
    rw [abs_of_nonpos hSle]
    have hfl : ⌊-totalLines ds⌋ = -emittedLines (scrollRun ds) := by
      rw [Int.floor_eq_iff]
      push_cast
      constructor <;> linarith
    rw [hfl, neg_neg]

/-- Witness for C1: the all-nonnegative delta sequence
[+1/2 line, +3/4 line, +3 pixels] sums to exactly two lines and the run
emits exactly two whole lines. -/
theorem scroll_accumulator_witness :
    (∀ d ∈ [ScrollDelta.line (1/2), ScrollDelta.line (3/4), ScrollDelta.pixel 3],
      0 ≤ deltaLines d)
  ∧ emittedLines
      (scrollRun [ScrollDelta.line (1/2), ScrollDelta.line (3/4), ScrollDelta.pixel 3])
      = 2 := by
  have hd : ∀ d ∈ [ScrollDelta.line (1/2), ScrollDelta.line (3/4), ScrollDelta.pixel 3],
      0 ≤ deltaLines d := by
    intro d hdm
    fin_cases hdm <;> norm_num [deltaLines, touchpadScrollMultiplier]
  refine ⟨hd, ?_⟩
  have h := (scroll_accumulator_spec
    [ScrollDelta.line (1/2), ScrollDelta.line (3/4), ScrollDelta.pixel 3]).2.2.1 hd
  rw [h]
  norm_num [totalLines, deltaLines, touchpadScrollMultiplier,
    List.map_cons, List.map_nil, List.sum_cons, List.sum_nil]

theorem scrollStep_emit_eq (s : ScrollState) (d : ScrollDelta) (x : ℚ) (t : ℤ)
    (hx : s.acc + deltaLines d = x) (h1 : 1 ≤ |x|) (ht : ratTrunc x = t) :
    scrollStep s d = { acc := x - t, events := s.events ++ [t] } := by
  unfold scrollStep
  rw [hx, if_pos h1, ht]

theorem scrollStep_skip_eq (s : ScrollState) (d : ScrollDelta) (x : ℚ)
    (hx : s.acc + deltaLines d = x) (h1 : ¬ 1 ≤ |x|) :
    scrollStep s d = { acc := x, events := s.events } := by
  unfold scrollStep
  rw [hx, if_neg h1]

/-- C1 counterexample: for the mixed-sign delta sequence
[+3/2 lines, −3/4 lines] (every value and operation exact in `f32` as
well), the run emits one whole line while the floor of the cumulative input
magnitude |3/2 − 3/4| = 3/4 is zero, so the claimed equation between the
cumulative emitted count and the floor of the cumulative input magnitude is
false. -/
theorem scroll_mixed_sign_counterexample :
    emittedLines (scrollRun [ScrollDelta.line (3/2), ScrollDelta.line (-(3/4))]) = 1
  ∧ ⌊|totalLines [ScrollDelta.line (3/2), ScrollDelta.line (-(3/4))]|⌋ = 0
  ∧ emittedLines (scrollRun [ScrollDelta.line (3/2), ScrollDelta.line (-(3/4))])
      ≠ ⌊|totalLines [ScrollDelta.line (3/2), ScrollDelta.line (-(3/4))]|⌋ := by
  have h1 : scrollStep scrollInit (ScrollDelta.line (3/2))
      = { acc := 1/2, events := [1] } := by
    have h := scrollStep_emit_eq scrollInit (ScrollDelta.line (3/2)) (3/2) 1
      (by norm_num [scrollInit, deltaLines])
      (by rw [abs_of_nonneg (by norm_num)]; norm_num)
      (by unfold ratTrunc; rw [if_pos (by norm_num)]; norm_num)
    rw [h]
    simp only [scrollInit, ScrollState.mk.injEq, List.nil_append]
    norm_num
  have h2 : scrollStep { acc := 1/2, events := [1] } (ScrollDelta.line (-(3/4)))
      = { acc := -(1/4), events := [1] } := by
    have h := scrollStep_skip_eq { acc := 1/2, events := [1] }
      (ScrollDelta.line (-(3/4))) (-(1/4))
      (by norm_num [deltaLines])
      (by rw [abs_of_nonpos (by norm_num)]; norm_num)
    rw [h]
  have hrun : scrollRun [ScrollDelta.line (3/2), ScrollDelta.line (-(3/4))]
      = { acc := -(1/4), events := [1] } := by
    simp only [scrollRun, List.foldl_cons, List.foldl_nil]
    rw [h1, h2]
  have he : emittedLines (scrollRun [ScrollDelta.line (3/2), ScrollDelta.line (-(3/4))]) = 1 := by
    rw [hrun]
    simp [emittedLines]
  have ht : ⌊|totalLines [ScrollDelta.line (3/2), ScrollDelta.line (-(3/4))]|⌋ = (0 : ℤ) := by
    have : totalLines [ScrollDelta.line (3/2), ScrollDelta.line (-(3/4))] = 3/4 := by
      norm_num [totalLines, deltaLines, List.map_cons, List.map_nil,
        List.sum_cons, List.sum_nil]
    rw [this, abs_of_nonneg (by norm_num)]
    norm_num
  refine ⟨he, ht, ?_⟩
  rw [he, ht]
  omega

/- ### C2: keyboard translation -/

/-- C2: for a physical key with keymap-table entry `w` (every real table
entry keeps `w + 0x80` within 16 bits): the release scancode exceeds the
press scancode by exactly the release offset 0x80; a mapped code at or
above the extended threshold 0xe000 yields exactly two injections, the
escape byte 0xe0 and then the mapped code with 0xe000 subtracted (exactly,
whenever the difference fits a byte, as for all real table entries); a code
below the threshold yields the single injection of the code as a byte; and
a key with no table entry yields no injection. -/
theorem key_translation_spec (w : Nat) (released : Bool)
    (hw : w + releaseOffset < 65536) :
    mappedScancode w true = mappedScancode w false + releaseOffset
  ∧ (extendedThreshold ≤ mappedScancode w released →
      keyEventInjections (some w) released
        = [escapeByte, (mappedScancode w released - extendedThreshold) % 256])
  ∧ (extendedThreshold ≤ mappedScancode w released →
      mappedScancode w released < extendedThreshold + 256 →
      keyEventInjections (some w) released
        = [escapeByte, mappedScancode w released - extendedThreshold])
  ∧ (mappedScancode w released < extendedThreshold →
      keyEventInjections (some w) released = [mappedScancode w released % 256])
  ∧ keyEventInjections none released = [] := by
  constructor
  · simp [mappedScancode, Nat.mod_eq_of_lt hw]
  constructor
  · intro h
    simp [keyEventInjections, scancodeInjections, if_pos h]
  constructor
  · intro h h2
    have hm : (mappedScancode w released - extendedThreshold) % 256
        = mappedScancode w released - extendedThreshold := by
      apply Nat.mod_eq_of_lt
      omega
    simp [keyEventInjections, scancodeInjections, if_pos h, hm]
  constructor
  · intro h
    simp only [keyEventInjections, scancodeInjections]
    rw [if_neg (not_le.mpr h)]
  · rfl

/-- Witness for C2: the extended table entry 0xe04b (Left arrow), pressed,
yields the two injections [0xe0, 0x4b]; its release scancode is the press
scancode plus 0x80. -/
theorem key_translation_witness :
    (0xe04b + releaseOffset < 65536)
  ∧ mappedScancode 0xe04b true = mappedScancode 0xe04b false + releaseOffset
  ∧ keyEventInjections (some 0xe04b) false = [0xe0, 0x4b] := by
  have h := key_translation_spec 0xe04b false (by decide)
  refine ⟨by decide, h.1, ?_⟩
  have h2 := h.2.2.1 (by decide) (by decide)
  rw [h2]
  decide

/- ### C3: PendingRedraw coalescing -/

theorem sysStep_frames_no_tick (s : SysState) (e : SysEvent)
    (h : e ≠ SysEvent.wake true) : (sysStep s e).frames = s.frames := by
  cases e with
  | write b => cases b <;> rfl
  | wake b =>
    cases b
    · rfl
    · exact absurd rfl h

theorem sysFold_frames (es : List SysEvent) :
    ∀ s : SysState, (∀ e ∈ es, e ≠ SysEvent.wake true) →
      (List.foldl sysStep s es).frames = s.frames := by
  induction es with
  | nil => intro s _; rfl
  | cons e es ih =>
    intro s h
    rw [List.foldl_cons, ih (sysStep s e) (fun x hx => h x (List.mem_cons_of_mem e hx)),
      sysStep_frames_no_tick s e (h e (List.mem_cons_self e es))]

theorem sysStep_tick_frames (s : SysState) :
    (sysStep s (SysEvent.wake true)).frames
      = if s.pending = true then s.frames + 1 else s.frames := rfl

theorem sysFold_pending (es : List SysEvent) :
    ∀ s : SysState, (∀ e ∈ es, e ≠ SysEvent.wake true) →
      ((List.foldl sysStep s es).pending = true ↔
        (s.pending = true ∨ SysEvent.write true ∈ es)) := by
  induction es with
  | nil => intro s _; simp
  | cons e es ih =>
    intro s h
    rw [List.foldl_cons, ih (sysStep s e) (fun x hx => h x (List.mem_cons_of_mem e hx))]
    cases e with
    | write b =>
      cases b
      · simp [sysStep]
      · simp [sysStep]
    | wake b =>
      cases b
      · simp [sysStep]
      · exact absurd rfl (h (SysEvent.wake true) (List.mem_cons_self _ es))

/-- C3: a successful engine write sets PendingRedraw; a presentation tick
clears the flag before painting and paints exactly when it was set; hence
from one tick, a run of intermediate events containing at least one
successful write but no tick yields no frame in between and exactly one
more presented frame at the next tick, while a tick whose flag is unset
presents nothing. -/
theorem pending_redraw_coalescing (s : SysState) (es : List SysEvent)
    (hticks : ∀ e ∈ es, e ≠ SysEvent.wake true) :
    (sysStep s (SysEvent.write true)).pending = true
  ∧ (sysStep s (SysEvent.wake true)).pending = false
  ∧ (s.pending = false → (sysStep s (SysEvent.wake true)).frames = s.frames)
  ∧ (SysEvent.write true ∈ es →
      (List.foldl sysStep (sysStep s (SysEvent.wake true)) es).frames
          = (sysStep s (SysEvent.wake true)).frames
      ∧ (sysStep (List.foldl sysStep (sysStep s (SysEvent.wake true)) es)
            (SysEvent.wake true)).frames
          = (sysStep s (SysEvent.wake true)).frames + 1)
  ∧ (SysEvent.write true ∉ es →
      (sysStep (List.foldl sysStep (sysStep s (SysEvent.wake true)) es)
          (SysEvent.wake true)).frames
        = (sysStep s (SysEvent.wake true)).frames) := by
  have hclear : (sysStep s (SysEvent.wake true)).pending = false := rfl
  have hframes := sysFold_frames es (sysStep s (SysEvent.wake true)) hticks
  have hpend := sysFold_pending es (sysStep s (SysEvent.wake true)) hticks
  refine ⟨rfl, hclear, ?_, ?_, ?_⟩
  · intro h
    simp [sysStep, h]
  · intro hmem
    refine ⟨hframes, ?_⟩
    have hp : (List.foldl sysStep (sysStep s (SysEvent.wake true)) es).pending = true :=
      hpend.mpr (Or.inr hmem)
    rw [sysStep_tick_frames, hp, if_pos rfl, hframes]
  · intro hmem
    have hp : (List.foldl sysStep (sysStep s (SysEvent.wake true)) es).pending ≠ true := by
      intro htrue
      rcases hpend.mp htrue with hcase | hcase
      · rw [hclear] at hcase
        exact Bool.false_ne_true hcase
      · exact hmem hcase
    have hp0 : (List.foldl sysStep (sysStep s (SysEvent.wake true)) es).pending = false :=
      eq_false_of_ne_true hp
    rw [sysStep_tick_frames, hp0, if_neg (by decide), hframes]

/-- Witness for C3: from a ticked state, three successful-or-failed writes
and an idle wake, followed by the next tick, present exactly one frame. -/
theorem pending_redraw_witness :
    (∀ e ∈ ([SysEvent.write true, SysEvent.write false, SysEvent.wake false,
        SysEvent.write true] : List SysEvent), e ≠ SysEvent.wake true)
  ∧ SysEvent.write true ∈ ([SysEvent.write true, SysEvent.write false,
        SysEvent.wake false, SysEvent.write true] : List SysEvent)
  ∧ (sysStep (List.foldl sysStep (sysStep ⟨true, 5⟩ (SysEvent.wake true))
        [SysEvent.write true, SysEvent.write false, SysEvent.wake false,
          SysEvent.write true]) (SysEvent.wake true)).frames
      = (sysStep ⟨true, 5⟩ (SysEvent.wake true)).frames + 1 := by
  refine ⟨by decide, by decide, ?_⟩
  exact ((pending_redraw_coalescing ⟨true, 5⟩
    [SysEvent.write true, SysEvent.write false, SysEvent.wake false, SysEvent.write true]
    (by decide)).2.2.2.1 (by decide)).2

/- ### C4: shared geometry consistency -/

/-- C4: after `resize(cols, rows)` on the Virtual capability (equivalently,
after a Resize channel event is applied by the application loop), a `size`
query returns exactly (cols, rows) and a `window_size` query returns
exactly that same pair (with zero pixel part) — both components always come
from the single stored pair, so no mixed old/new pair can be observed. -/
theorem geometry_resize_spec (g : Nat × Nat) (cols rows : Nat) (s : LoopState) :
    backendSize (screenResize g cols rows) = { width := cols, height := rows }
  ∧ backendWindowSize (screenResize g cols rows)
      = { columns_rows := { width := cols, height := rows },
          pixels := { width := 0, height := 0 } }
  ∧ (applyRecv s (RecvOutcome.ok (ChanEvent.resize cols rows))).geom = (cols, rows)
  ∧ backendSize (applyRecv s (RecvOutcome.ok (ChanEvent.resize cols rows))).geom
      = { width := cols, height := rows } :=
  ⟨rfl, rfl, rfl, rfl⟩

/- ### C5: clipboard failure handling -/

/-- C5 counterexample: a failed clipboard write is not silently dropped —
`set_text` unwraps the write result, so at the concrete failing input the
outcome is a panic, not a normal (dropped) return. -/
theorem clipboard_write_counterexample :
    clipboardSetText (Except.error ()) = ClipWriteOutcome.panicked
  ∧ clipboardSetText (Except.error ()) ≠ ClipWriteOutcome.ok :=
  ⟨rfl, by decide⟩

/-- C5 (amended): a failed clipboard read degrades to `none` (no error
propagates), but a failed clipboard write panics via the unwrap rather than
being silently dropped; successful reads and writes behave normally. -/
theorem clipboard_failure_spec (s : String) :
    clipboardGetText (Except.ok s) = some s
  ∧ clipboardGetText (Except.error ()) = none
  ∧ clipboardSetText (Except.ok ()) = ClipWriteOutcome.ok
  ∧ clipboardSetText (Except.error ()) = ClipWriteOutcome.panicked :=
  ⟨rfl, rfl, rfl, rfl⟩

/- ### C6: channel disconnection and the application loop -/

/-- C6 counterexample: with the app in its initial state and the input
channel disconnected, the loop iteration neither returns an error nor
terminates — it continues to the next iteration with the state unchanged,
contradicting the claim that the loop treats disconnection as fatal. -/
theorem disconnect_fatal_counterexample :
    runAppStep { app := appInit, geom := (80, 24) } RecvOutcome.disconnected false
      = StepResult.next { app := appInit, geom := (80, 24) }
  ∧ runAppStep { app := appInit, geom := (80, 24) } RecvOutcome.disconnected false
      ≠ StepResult.err :=
  ⟨rfl, by decide⟩

/-- C6 (amended): when the window-to-application channel is permanently
closed, the Virtual capability's `poll_and_read` does surface a
disconnection error, but the `run_app` loop of src/tui/crossterm.rs matches
every receive error with a catch-all that does nothing: it ignores the
disconnection and continues to iterate (exiting only through
`should_quit`), never returning an error for it. -/
theorem disconnect_ignored_spec (s : LoopState) (t : Bool)
    (h : s.app.should_quit = false) :
    pollAndRead (RecvTimeoutOutcome.disconnected : RecvTimeoutOutcome ChanEvent)
      = Except.error RecvError.disconnected
  ∧ runAppStep s RecvOutcome.disconnected t
      = StepResult.next
          (if t then { s with app := appApply s.app AppAction.tick } else s)
  ∧ runAppStep s RecvOutcome.disconnected t ≠ StepResult.err := by
  have h2 : runAppStep s RecvOutcome.disconnected t
      = StepResult.next
          (if t then { s with app := appApply s.app AppAction.tick } else s) := by
    cases t <;> simp [runAppStep, applyRecv, appApply, h]
  refine ⟨rfl, h2, ?_⟩
  rw [h2]
  simp

/-- Witness for C6: at the initial loop state with the tick elapsed, a
disconnected receive still does not end the loop with an error. -/
theorem disconnect_ignored_witness :
    ({ app := appInit, geom := (80, 24) } : LoopState).app.should_quit = false
  ∧ runAppStep { app := appInit, geom := (80, 24) } RecvOutcome.disconnected true
      ≠ StepResult.err :=
  ⟨rfl, (disconnect_ignored_spec { app := appInit, geom := (80, 24) } true rfl).2.2⟩

/- ### C7: poll_and_read outcomes -/

/-- C7: `poll_and_read` returns the event when one arrives within the
timeout, returns "no event" when the timeout elapses, and fails exactly
when the channel is permanently closed; its only blocking is the single
`recv_timeout(timeout)` call, so it blocks at most the given timeout. -/
theorem poll_and_read_spec {α : Type} (r : RecvTimeoutOutcome α) :
    (∀ e : α, pollAndRead (RecvTimeoutOutcome.ok e) = Except.ok (some e))
  ∧ pollAndRead (RecvTimeoutOutcome.timeout : RecvTimeoutOutcome α) = Except.ok none
  ∧ (exceptIsError (pollAndRead r) = true ↔ r = RecvTimeoutOutcome.disconnected) := by
  refine ⟨fun e => rfl, rfl, ?_⟩
  cases r <;> simp [pollAndRead, exceptIsError]

/-- Witness for C7: a concrete arriving event is returned as `Ok(Some _)`,
and the disconnected outcome is the error case. -/
theorem poll_and_read_witness :
    pollAndRead (RecvTimeoutOutcome.ok (42 : Nat)) = Except.ok (some 42)
  ∧ exceptIsError
      (pollAndRead (RecvTimeoutOutcome.disconnected : RecvTimeoutOutcome Nat)) = true :=
  ⟨(poll_and_read_spec (RecvTimeoutOutcome.ok (42 : Nat))).1 42,
    (poll_and_read_spec (RecvTimeoutOutcome.disconnected : RecvTimeoutOutcome Nat)).2.2.mpr rfl⟩

/- ### C8: KeyText dispatch -/

/-- C8 counterexample: the single character "h" is neither an arrow escape
sequence nor "j", yet it fires the left-navigation action and not the
generic key action, so "other single characters map to the generic key
action" is false on the code. -/
theorem keytext_h_counterexample :
    keyTextActions ['h'] = [AppAction.left]
  ∧ keyTextActions ['h'] ≠ [AppAction.key 'h'] :=
  ⟨by decide, by decide⟩

/-- C8 (amended): `KeyText("j")` in the initial state fires the down action
exactly once and nothing else; the arrow escape sequences ESC[A, ESC[B,
ESC[C, ESC[D fire up, down, right, left respectively; the single
characters h, k, l fire the left, up, right navigation actions (j fires
down); any other single character whose UTF-8 encoding is one byte fires
the generic key action; and any other string — including a single
character wider than one byte, which fails the byte-length guard — fires
no action at all. -/
theorem keytext_dispatch_spec (c : Char) (s : List Char)
    (hc1 : c.utf8Size = 1)
    (hc : c ≠ 'h' ∧ c ≠ 'j' ∧ c ≠ 'k' ∧ c ≠ 'l')
    (hs : utf8Length s ≠ 1 ∧ s ≠ ['\x1b', '[', 'A'] ∧ s ≠ ['\x1b', '[', 'B']
      ∧ s ≠ ['\x1b', '[', 'C'] ∧ s ≠ ['\x1b', '[', 'D']) :
    keyTextActions ['j'] = [AppAction.down]
  ∧ keyTextActions ['\x1b', '[', 'A'] = [AppAction.up]
  ∧ keyTextActions ['\x1b', '[', 'B'] = [AppAction.down]
  ∧ keyTextActions ['\x1b', '[', 'C'] = [AppAction.right]
  ∧ keyTextActions ['\x1b', '[', 'D'] = [AppAction.left]
  ∧ keyTextActions ['h'] = [AppAction.left]
  ∧ keyTextActions ['k'] = [AppAction.up]
  ∧ keyTextActions ['l'] = [AppAction.right]
  ∧ keyTextActions [c] = [AppAction.key c]
  ∧ keyTextActions s = [] := by
  obtain ⟨hch, hcj, hck, hcl⟩ := hc
  obtain ⟨hlen, hA, hB, hC, hD⟩ := hs
  refine ⟨by decide, by decide, by decide, by decide, by decide,
    by decide, by decide, by decide, ?_, ?_⟩
  · have hp : parseKeyCode [c] = some (TKeyCode.char c) := by
      simp [parseKeyCode, utf8Length, hc1]
    have ha : actionOfKeyCode (TKeyCode.char c) = AppAction.key c := by
      simp [actionOfKeyCode, hch, hcj, hck, hcl]
    simp [keyTextActions, handleInput, hp, ha, appApply, appInit]
  · have hp : parseKeyCode s = none := by
      unfold parseKeyCode
      rw [if_neg hA, if_neg hB, if_neg hC, if_neg hD, if_neg hlen]
    simp [keyTextActions, handleInput, hp, appInit]

/-- Witness for C8: "j" fires down, the one-byte character "x" fires the
generic key action, and the two-byte single character "é" fails the
byte-length guard and fires nothing. -/
theorem keytext_dispatch_witness :
    keyTextActions ['j'] = [AppAction.down]
  ∧ keyTextActions ['x'] = [AppAction.key 'x']
  ∧ keyTextActions ['é'] = [] := by
  have h := keytext_dispatch_spec 'x' ['é'] (by decide) (by decide) (by decide)
  exact ⟨h.1, h.2.2.2.2.2.2.2.2.1, h.2.2.2.2.2.2.2.2.2⟩

/- ### C9: shutdown signalling and window-loop exit -/

/-- C9: the TUI thread sends the shutdown signal as its final action
whatever the application loop's result; the window loop exits on receiving
that signal; and the only handler arms that exit the window loop are the
shutdown signal and a user close request — the handler's exit decision is a
function of the received event alone, with no shared quit flag. -/
theorem shutdown_signal_spec (e : WinEvent) (h : winExits e = true) :
    (∀ r : Except Unit Unit, ThreadAct.sendShutdown ∈ runTuiThread r)
  ∧ winExits WinEvent.userEvent = true
  ∧ (e = WinEvent.userEvent ∨ e = WinEvent.closeRequested) := by
  refine ⟨?_, rfl, ?_⟩
  · intro r
    cases r <;> simp [runTuiThread]
  · cases e <;> simp_all [winExits]

/-- Witness for C9: the shutdown signal itself exits the window loop and is
one of the two permitted exit triggers. -/
theorem shutdown_signal_witness :
    winExits WinEvent.userEvent = true
  ∧ (WinEvent.userEvent = WinEvent.userEvent
      ∨ WinEvent.userEvent = WinEvent.closeRequested) :=
  ⟨(shutdown_signal_spec WinEvent.userEvent rfl).2.1,
    (shutdown_signal_spec WinEvent.userEvent rfl).2.2⟩

/- ### C10: the application-output write path -/

/-- C10: `TerminalWriter::write` always returns `Ok(buf.len())`, never an
error — even when the engine lock cannot be acquired, in which case the
bytes are silently discarded, the engine state is untouched and
PendingRedraw is not set; on a successful lock the bytes are processed and
the flag set. -/
theorem terminal_writer_spec (lockOk : Bool) (st : EngineState) (buf : List Nat) :
    (terminalWriterWrite lockOk st buf).2 = Except.ok buf.length
  ∧ (lockOk = true → (terminalWriterWrite lockOk st buf).1
      = { bytes := st.bytes ++ buf, pending := true })
  ∧ (lockOk = false → (terminalWriterWrite lockOk st buf).1 = st) := by
  cases lockOk <;> simp [terminalWriterWrite]

/-- Witness for C10: with the lock unavailable, writing three bytes still
reports all three written while the engine bytes and the flag are
unchanged. -/
theorem terminal_writer_witness :
    (terminalWriterWrite false { bytes := [1, 2], pending := false } [7, 8, 9]).2
      = Except.ok 3
  ∧ (terminalWriterWrite false { bytes := [1, 2], pending := false } [7, 8, 9]).1
      = { bytes := [1, 2], pending := false } := by
  have h := terminal_writer_spec false { bytes := [1, 2], pending := false } [7, 8, 9]
  refine ⟨?_, h.2.2 rfl⟩
  rw [h.1]
  rfl
